import Mathlib

/-!
Verification development for the pre-warmed agent pool of the Voice_bot
backend (`backend/bot/pool.py`).

The pool is embedded shallowly:

* an OS child process is modelled by a snapshot of its pid and its
  `returncode` at the moment the pool inspects it (`none` = still running);
* `PooledAgent` mirrors the Python dataclass field by field (timestamps are
  natural numbers);
* the asyncio queue `_ready_agents` is a FIFO list (head = front) and the
  tracking list `_all_agents` is a list; Python's `list.remove` is
  `List.erase` (first occurrence, no-op when absent);
* the outcome of each subprocess-creation attempt is an oracle input
  (`AttemptOutcome`): either the `create_subprocess_exec` call raises, or it
  yields a process with a given pid whose `returncode` after the startup
  grace period is given;
* an operation that can let an exception escape returns `Except`;
  background tasks (`asyncio.create_task`) are not executed inline — the
  health monitor reports how many replenish tasks it schedules.
-/

/-- Snapshot of an OS child process: its pid and the value of `returncode`
at the moment the pool reads it (`none` means the process is still running). -/
structure Process where
  pid : Nat
  returncode : Option Int
deriving DecidableEq, Repr

/-- Mirror of the `PooledAgent` dataclass in `backend/bot/pool.py`. -/
structure PooledAgent where
  room_name : String
  agent_id : Option String
  process : Option Process
  created_at : Nat
  ready : Bool
  last_health_check : Nat
  health_check_passed : Bool
deriving DecidableEq, Repr

/-- `AGENT_STARTUP_TIME` (seconds of startup grace) from pool.py. -/
def AGENT_STARTUP_TIME : Nat := 5

/-- `AGENT_HEALTH_CHECK_INTERVAL` from pool.py. -/
def AGENT_HEALTH_CHECK_INTERVAL : Nat := 10

/-- `MAX_AGENT_AGE` from pool.py: maximum age in seconds before recycling. -/
def MAX_AGENT_AGE : Nat := 600

/-- `max_attempts` inside `AgentPool._spawn_agent`. -/
def max_attempts : Nat := 3

/-- The liveness test used by `AgentPool.pop` and `AgentPool.shutdown`:
`agent.process and agent.process.returncode is None`. -/
def isAlive (a : PooledAgent) : Bool :=
  match a.process with
  | some pr => pr.returncode.isNone
  | none => false

/-- The death test of the health monitor:
`agent.process and agent.process.returncode is not None`. -/
def procDead (a : PooledAgent) : Bool :=
  match a.process with
  | some pr => pr.returncode.isSome
  | none => false

/-- World-determined outcome of one iteration of `_spawn_agent`'s retry loop:
either `create_subprocess_exec` (or anything else in the `try` body) raises,
or a process is created with the given pid and, once the startup grace period
has elapsed, shows the given `returncode`. -/
inductive AttemptOutcome where
  | exn : AttemptOutcome
  | spawned : Nat → Option Int → AttemptOutcome
deriving DecidableEq, Repr

/-- Oracle for one call of `_spawn_agent`: the freshly drawn room name
(`voice-room-<uuid>`), the current clock, and the outcome of each attempt
the loop may make. -/
structure SpawnEnv where
  room : String
  now : Nat
  outcomes : List AttemptOutcome
deriving DecidableEq, Repr

/-- Observable result of one `_spawn_agent` call: the returned agent (or the
escaped exception), how many loop iterations ran, the room name each attempt
spawned into, and the seconds slept between consecutive attempts. -/
structure SpawnOutcome where
  result : Except Unit PooledAgent
  attemptsUsed : Nat
  roomsUsed : List String
  delaysSlept : List Nat
deriving Repr

/-- The retry loop of `AgentPool._spawn_agent` (pool.py lines 256-322):
`fuel` is the number of attempts still allowed (initially `max_attempts`).
Each iteration spawns a process into the SAME `room` (the room name is drawn
once, before the loop), waits the grace period, and checks `returncode`;
a dead process or an exception retries after a 1 second sleep unless the
attempt budget is exhausted, in which case the exception escapes. -/
def spawnGo (room : String) (now : Nat) :
    PooledAgent → Nat → List AttemptOutcome → SpawnOutcome
  | _, 0, _ => { result := .error (), attemptsUsed := 0, roomsUsed := [], delaysSlept := [] }
  | agent, fuel + 1, outcomes =>
    match outcomes with
    | [] =>
      -- no further world outcome: the attempt body raises
      if fuel = 0 then
        { result := .error (), attemptsUsed := 1, roomsUsed := [room], delaysSlept := [] }
      else
        let r := spawnGo room now agent fuel []
        { result := r.result, attemptsUsed := r.attemptsUsed + 1,
          roomsUsed := room :: r.roomsUsed, delaysSlept := 1 :: r.delaysSlept }
    | .exn :: rest =>
      if fuel = 0 then
        { result := .error (), attemptsUsed := 1, roomsUsed := [room], delaysSlept := [] }
      else
        let r := spawnGo room now agent fuel rest
        { result := r.result, attemptsUsed := r.attemptsUsed + 1,
          roomsUsed := room :: r.roomsUsed, delaysSlept := 1 :: r.delaysSlept }
    | .spawned pid rc :: rest =>
      match rc with
      | some code =>
        -- process died during the grace period
        if fuel = 0 then
          { result := .error (), attemptsUsed := 1, roomsUsed := [room], delaysSlept := [] }
        else
          let r := spawnGo room now { agent with process := some ⟨pid, some code⟩ } fuel rest
          { result := r.result, attemptsUsed := r.attemptsUsed + 1,
            roomsUsed := room :: r.roomsUsed, delaysSlept := 1 :: r.delaysSlept }
      | none =>
        { result := .ok { agent with
              process := some ⟨pid, none⟩,
              ready := true,
              health_check_passed := true,
              last_health_check := now },
          attemptsUsed := 1, roomsUsed := [room], delaysSlept := [] }

/-- `AgentPool._spawn_agent(agent_id)`: draws the room name once, builds the
record, then runs the bounded retry loop. -/
def spawnAgent (agent_id : Option String) (env : SpawnEnv) : SpawnOutcome :=
  let agent : PooledAgent :=
    { room_name := env.room, agent_id := agent_id, process := none,
      created_at := env.now, ready := false, last_health_check := env.now,
      health_check_passed := false }
  spawnGo env.room env.now agent max_attempts env.outcomes

/-- State of `AgentPool`: target size, the FIFO ready queue, the tracking
list, the `_running` flag and whether the health-monitor task exists. -/
structure AgentPool where
  pool_size : Nat
  ready_agents : List PooledAgent
  all_agents : List PooledAgent
  running : Bool
  health_task : Bool
deriving DecidableEq, Repr

/-- `AgentPool._remove_agent`: erase the record from `_all_agents` (first
occurrence, only if present) and terminate its process if still running.
The ready queue is NOT touched. -/
def removeAgent (p : AgentPool) (a : PooledAgent) : AgentPool :=
  { p with all_agents := p.all_agents.erase a }

/-- The drain loop at the top of `AgentPool.pop` (lines 164-192): pop the
front of the ready queue; a live agent is removed from tracking and
returned, a dead one is removed from tracking and the drain continues.
Returns (returned agent, remaining queue, remaining tracking list). -/
def popDrain : List PooledAgent → List PooledAgent →
    Option PooledAgent × List PooledAgent × List PooledAgent
  | [], all => (none, [], all)
  | a :: rest, all =>
    if isAlive a then (some a, rest, all.erase a)
    else popDrain rest (all.erase a)

/-- `AgentPool.pop(agent_id)`: drain the queue for a live agent (scheduling
a background replenish on success, not executed inline); on exhaustion run
the defensive desync drain, then spawn one agent on demand, remove it from
tracking, and return it; a spawn exception is caught and `None` returned. -/
def pop (p : AgentPool) (agent_id : Option String) (env : SpawnEnv) :
    Option PooledAgent × AgentPool :=
  match popDrain p.ready_agents p.all_agents with
  | (some a, q, all) => (some a, { p with ready_agents := q, all_agents := all })
  | (none, q, all) =>
    let q2 := if q.length > p.pool_size then [] else q
    match (spawnAgent agent_id env).result with
    | .ok a => (some a, { p with ready_agents := q2, all_agents := all.erase a })
    | .error _ => (none, { p with ready_agents := q2, all_agents := all })

/-- `AgentPool._replenish`: under the lock, re-check the tracked count and
spawn one generic agent, inserting it into queue and tracking on success.
There is no exception handler: a spawn failure escapes `_replenish` (the
`.error` constructor, carrying the state at the moment the exception
propagates). -/
def replenish (p : AgentPool) (env : SpawnEnv) : Except AgentPool AgentPool :=
  if p.all_agents.length ≥ p.pool_size then .ok p
  else
    match (spawnAgent none env).result with
    | .ok a => .ok { p with ready_agents := p.ready_agents ++ [a],
                            all_agents := p.all_agents ++ [a] }
    | .error _ => .error p

/-- The pool state observed after a `_replenish` call, whether the coroutine
returned normally or let the spawn exception escape. -/
def poolOf : Except AgentPool AgentPool → AgentPool
  | .ok p => p
  | .error p => p

/-- The agents successfully produced by `start`'s `pool_size` concurrent
`_spawn_agent()` calls (`asyncio.gather(..., return_exceptions=True)`
followed by the `isinstance` filter). -/
def startSuccesses (p : AgentPool) (envf : Nat → SpawnEnv) : List PooledAgent :=
  ((List.range p.pool_size).map (fun i => (spawnAgent none (envf i)).result)).filterMap
    Except.toOption

/-- `AgentPool.start()`: set `_running`; if LiveKit is not configured, skip
pre-warming and only start the health monitor; otherwise spawn `pool_size`
generic agents concurrently, enqueue and track every success, then start the
health monitor. -/
def start (p : AgentPool) (configured : Bool) (envf : Nat → SpawnEnv) : AgentPool :=
  let p1 : AgentPool := { p with running := true }
  if configured then
    let succ := startSuccesses p envf
    { p1 with ready_agents := p1.ready_agents ++ succ,
              all_agents := p1.all_agents ++ succ,
              health_task := true }
  else
    { p1 with health_task := true }

/-- The health monitor's per-agent removal test: process exited, or (for a
non-exited process) age above `MAX_AGENT_AGE`. -/
def markedForRemoval (now : Nat) (a : PooledAgent) : Bool :=
  procDead a || decide (now - a.created_at > MAX_AGENT_AGE)

/-- One sweep of `AgentPool._health_monitor` (the loop body after the
sleep): collect dead or aged-out agents, `_remove_agent` each, then compute
the deficit against `pool_size` and schedule that many `_replenish` tasks.
Returns the state after removals and the number of tasks scheduled. -/
def healthSweep (p : AgentPool) (now : Nat) : AgentPool × Nat :=
  if p.running then
    let dead := p.all_agents.filter (markedForRemoval now)
    let p1 := dead.foldl removeAgent p
    let current := p1.all_agents.length
    let needed := if current < p1.pool_size then p1.pool_size - current else 0
    (p1, needed)
  else (p, 0)

/-- `AgentPool.shutdown()`: clear `_running`, cancel the health monitor,
terminate every tracked agent whose process is still running, and clear
`_all_agents`. The ready queue is NOT cleared. Returns the new state and
the list of agents whose processes were terminated. -/
def shutdown (p : AgentPool) : AgentPool × List PooledAgent :=
  let term := p.all_agents.filter isAlive
  ({ p with running := false, health_task := false, all_agents := [] }, term)

/-- The dictionary returned by the `AgentPool.status` property. -/
structure PoolStatus where
  pool_size : Nat
  ready : Nat
  ready_rooms : List String
  total_tracked : Nat
  running : Bool
deriving DecidableEq, Repr

/-- `AgentPool.status`: read-only snapshot of the pool. -/
def status (p : AgentPool) : PoolStatus :=
  { pool_size := p.pool_size,
    ready := p.ready_agents.length,
    ready_rooms := (p.all_agents.filter (fun a => a.ready)).map (fun a => a.room_name),
    total_tracked := p.all_agents.length,
    running := p.running }

/-- The Ready Set bookkeeping invariant of the spec: the queue has no
duplicate records and every queued record is tracked. -/
@[reducible] def ReadyInv (p : AgentPool) : Prop :=
  p.ready_agents.Nodup ∧ ∀ a ∈ p.ready_agents, a ∈ p.all_agents

/-- A record whose process has exited with code 1. -/
def wDead : PooledAgent :=
  { room_name := "room-dead", agent_id := none, process := some ⟨11, some 1⟩,
    created_at := 0, ready := true, last_health_check := 0, health_check_passed := true }

/-- A record whose process is still running. -/
def wLive : PooledAgent :=
  { room_name := "room-live", agent_id := none, process := some ⟨12, none⟩,
    created_at := 0, ready := true, last_health_check := 0, health_check_passed := true }

/-- A pool tracking one dead-but-still-queued record. -/
def poolSweepCx : AgentPool :=
  { pool_size := 1, ready_agents := [wDead], all_agents := [wDead],
    running := true, health_task := true }

/-- A pool in steady state with one live pooled record. -/
def poolShutdownCx : AgentPool :=
  { pool_size := 2, ready_agents := [wLive], all_agents := [wLive],
    running := true, health_task := true }

/-- A pool whose queue holds a dead record in front of a live one. -/
def poolDrainW : AgentPool :=
  { pool_size := 2, ready_agents := [wDead, wLive], all_agents := [wDead, wLive],
    running := true, health_task := true }

/-- A running pool with no agents at all (target size 1). -/
def poolEmpty : AgentPool :=
  { pool_size := 1, ready_agents := [], all_agents := [],
    running := true, health_task := true }

/-- A freshly constructed pool of target size 2, not yet started. -/
def poolFresh2 : AgentPool :=
  { pool_size := 2, ready_agents := [], all_agents := [],
    running := false, health_task := false }

/-- A spawn oracle in which every attempt raises. -/
def badEnv : SpawnEnv := { room := "r-bad", now := 0, outcomes := [.exn, .exn, .exn] }

/-- A spawn oracle in which the first attempt succeeds. -/
def goodEnv : SpawnEnv := { room := "r-good", now := 3, outcomes := [.spawned 21 none] }

/-- A spawn oracle in which the first process dies during the grace period
and the second attempt succeeds. -/
def retryEnv : SpawnEnv :=
  { room := "r-retry", now := 0, outcomes := [.spawned 1 (some 1), .spawned 2 none, .exn] }

/-- The record produced by `spawnAgent none retryEnv` (second attempt). -/
def retryAgent : PooledAgent :=
  { room_name := "r-retry", agent_id := none, process := some ⟨2, none⟩,
    created_at := 0, ready := true, last_health_check := 0, health_check_passed := true }

/-- One always-succeeding spawn oracle per pre-warm slot. -/
def startEnvf : Nat → SpawnEnv :=
  fun i => { room := "r-start", now := i, outcomes := [.spawned (i + 1) none] }

/-- A spawn oracle for a tenant-specific on-demand spawn. -/
def tenantEnv : SpawnEnv := { room := "r-tenant", now := 4, outcomes := [.spawned 9 none] }

/-- The record produced by `spawnAgent (some "tenant") tenantEnv`. -/
def tenantAgent : PooledAgent :=
  { room_name := "r-tenant", agent_id := some "tenant", process := some ⟨9, none⟩,
    created_at := 4, ready := true, last_health_check := 4, health_check_passed := true }

theorem spawnGo_ok (room : String) (now : Nat) :
    ∀ (fuel : Nat) (agent : PooledAgent) (outs : List AttemptOutcome) (a : PooledAgent),
      (spawnGo room now agent fuel outs).result = Except.ok a →
      a.agent_id = agent.agent_id ∧ a.room_name = agent.room_name ∧ isAlive a = true := by
  intro fuel
  induction fuel with
  | zero =>
    intro agent outs a h
    simp [spawnGo] at h
  | succ n ih =>
    intro agent outs a h
    rcases outs with _ | ⟨o, rest⟩
    · by_cases hn : n = 0
      · subst hn; simp [spawnGo] at h
      · simp only [spawnGo, if_neg hn] at h
        exact ih agent [] a h
    · rcases o with _ | ⟨pid, rc⟩
      · by_cases hn : n = 0
        · subst hn; simp [spawnGo] at h
        · simp only [spawnGo, if_neg hn] at h
          exact ih agent rest a h
      · rcases rc with _ | code
        · simp only [spawnGo] at h
          injection h with h'
          subst h'
          exact ⟨rfl, rfl, by simp [isAlive]⟩
        · by_cases hn : n = 0
          · subst hn; simp [spawnGo] at h
          · simp only [spawnGo, if_neg hn] at h
            simpa using ih _ rest a h

theorem spawnAgent_ok (aid : Option String) (env : SpawnEnv) (a : PooledAgent)
    (h : (spawnAgent aid env).result = Except.ok a) :
    a.agent_id = aid ∧ a.room_name = env.room ∧ isAlive a = true := by
  simp only [spawnAgent] at h
  simpa using spawnGo_ok env.room env.now max_attempts _ env.outcomes a h

theorem spawnGo_shape (room : String) (now : Nat) :
    ∀ (fuel : Nat) (agent : PooledAgent) (outs : List AttemptOutcome),
      (spawnGo room now agent fuel outs).attemptsUsed ≤ fuel ∧
      (fuel ≠ 0 → (spawnGo room now agent fuel outs).attemptsUsed ≠ 0) ∧
      ((spawnGo room now agent fuel outs).result = Except.error () →
        (spawnGo room now agent fuel outs).attemptsUsed = fuel) ∧
      (spawnGo room now agent fuel outs).roomsUsed =
        List.replicate (spawnGo room now agent fuel outs).attemptsUsed room ∧
      (spawnGo room now agent fuel outs).delaysSlept =
        List.replicate ((spawnGo room now agent fuel outs).attemptsUsed - 1) 1 := by
  intro fuel
  induction fuel with
  | zero =>
    intro agent outs
    simp [spawnGo]
  | succ n ih =>
    intro agent outs
    by_cases hn : n = 0
    · subst hn
      rcases outs with _ | ⟨o, rest⟩
      · simp [spawnGo]
      · rcases o with _ | ⟨pid, rc⟩
        · simp [spawnGo]
        · rcases rc with _ | code <;> simp [spawnGo]
    · have hstep : ∀ (ag : PooledAgent) (rest : List AttemptOutcome),
          (spawnGo room now ag n rest).attemptsUsed + 1 ≤ n + 1 ∧
          ((spawnGo room now ag n rest).attemptsUsed + 1 ≠ 0) ∧
          ((spawnGo room now ag n rest).result = Except.error () →
            (spawnGo room now ag n rest).attemptsUsed + 1 = n + 1) ∧
          (room :: (spawnGo room now ag n rest).roomsUsed =
            List.replicate ((spawnGo room now ag n rest).attemptsUsed + 1) room) ∧
          ((1 : Nat) :: (spawnGo room now ag n rest).delaysSlept =
            List.replicate ((spawnGo room now ag n rest).attemptsUsed + 1 - 1) 1) := by
        intro ag rest
        obtain ⟨h1, h2, h3, h4, h5⟩ := ih ag rest
        refine ⟨by omega, by omega, fun he => by rw [h3 he], ?_, ?_⟩
        · rw [List.replicate_succ, h4]
        · have hpos : (spawnGo room now ag n rest).attemptsUsed ≠ 0 := h2 hn
          have heq : (spawnGo room now ag n rest).attemptsUsed + 1 - 1 =
              ((spawnGo room now ag n rest).attemptsUsed - 1) + 1 := by omega
          rw [heq, List.replicate_succ, h5]
      rcases outs with _ | ⟨o, rest⟩
      · simpa [spawnGo, hn] using hstep agent []
      · rcases o with _ | ⟨pid, rc⟩
        · simpa [spawnGo, hn] using hstep agent rest
        · rcases rc with _ | code
          · simp [spawnGo]
          · simpa [spawnGo, hn] using hstep _ rest

theorem popDrain_some_alive :
    ∀ (q all : List PooledAgent) (a : PooledAgent),
      (popDrain q all).1 = some a → isAlive a = true := by
  intro q
  induction q with
  | nil => intro all a h; simp [popDrain] at h
  | cons x rest ih =>
    intro all a h
    by_cases hx : isAlive x
    · simp only [popDrain, if_pos hx] at h
      injection h with h'
      subst h'
      exact hx
    · simp only [popDrain, if_neg hx] at h
      exact ih (all.erase x) a h

theorem popDrain_none_iff :
    ∀ (q all : List PooledAgent),
      (popDrain q all).1 = none ↔ ∀ a ∈ q, isAlive a = false := by
  intro q
  induction q with
  | nil => intro all; simp [popDrain]
  | cons x rest ih =>
    intro all
    by_cases hx : isAlive x
    · simp [popDrain, if_pos hx, hx]
    · simp only [popDrain, if_neg hx]
      rw [ih (all.erase x)]
      constructor
      · intro h a ha
        rcases List.mem_cons.mp ha with h' | h'
        · subst h'; exact Bool.eq_false_iff.mpr hx
        · exact h a h'
      · intro h a ha
        exact h a (List.mem_cons_of_mem x ha)

theorem popDrain_none_queue :
    ∀ (q all : List PooledAgent),
      (popDrain q all).1 = none → (popDrain q all).2.1 = [] := by
  intro q
  induction q with
  | nil => intro all _; simp [popDrain]
  | cons x rest ih =>
    intro all h
    by_cases hx : isAlive x
    · simp [popDrain, if_pos hx] at h
    · simp only [popDrain, if_neg hx] at h ⊢
      exact ih (all.erase x) h

theorem popDrain_queue_sub :
    ∀ (q all : List PooledAgent) (a : PooledAgent),
      a ∈ (popDrain q all).2.1 → a ∈ q := by
  intro q
  induction q with
  | nil => intro all a h; simp [popDrain] at h
  | cons x rest ih =>
    intro all a h
    by_cases hx : isAlive x
    · simp only [popDrain, if_pos hx] at h
      exact List.mem_cons_of_mem x h
    · simp only [popDrain, if_neg hx] at h
      exact List.mem_cons_of_mem x (ih (all.erase x) a h)

theorem popDrain_all_sub :
    ∀ (q all : List PooledAgent) (a : PooledAgent),
      a ∈ (popDrain q all).2.2 → a ∈ all := by
  intro q
  induction q with
  | nil => intro all a h; simpa [popDrain] using h
  | cons x rest ih =>
    intro all a h
    by_cases hx : isAlive x
    · simp only [popDrain, if_pos hx] at h
      exact List.erase_subset x all h
    · simp only [popDrain, if_neg hx] at h
      exact List.erase_subset x all (ih (all.erase x) a h)

theorem popDrain_inv :
    ∀ (q all : List PooledAgent), q.Nodup → (∀ a ∈ q, a ∈ all) →
      (popDrain q all).2.1.Nodup ∧
      ∀ a ∈ (popDrain q all).2.1, a ∈ (popDrain q all).2.2 := by
  intro q
  induction q with
  | nil => intro all _ _; simp [popDrain]
  | cons x rest ih =>
    intro all hnd hsub
    have hx_notin : x ∉ rest := (List.nodup_cons.mp hnd).1
    have hrest_nd : rest.Nodup := (List.nodup_cons.mp hnd).2
    have hrest_sub : ∀ a ∈ rest, a ∈ all.erase x := by
      intro a ha
      have hne : a ≠ x := fun he => hx_notin (he ▸ ha)
      exact (List.mem_erase_of_ne hne).mpr (hsub a (List.mem_cons_of_mem x ha))
    by_cases hx : isAlive x
    · simp only [popDrain, if_pos hx]
      exact ⟨hrest_nd, hrest_sub⟩
    · simp only [popDrain, if_neg hx]
      exact ih (all.erase x) hrest_nd hrest_sub

/-- C1 (counterexample): the Ready-Set-inside-tracking invariant holds of
`poolSweepCx` and of `poolShutdownCx`, yet one health-monitor removal of the
dead queued record (resp. one `shutdown()`) leaves the Ready Set strictly
larger than the tracking collection, because `_remove_agent` and
`shutdown` never touch `_ready_agents`. -/
theorem ready_inv_violated :
    ReadyInv poolSweepCx ∧
    ¬ ((healthSweep poolSweepCx 1000).1.ready_agents.length ≤
        (healthSweep poolSweepCx 1000).1.all_agents.length) ∧
    ReadyInv poolShutdownCx ∧
    ¬ ((shutdown poolShutdownCx).1.ready_agents.length ≤
        (shutdown poolShutdownCx).1.all_agents.length) := by decide

/-- C1 (amended): the invariant "every queued record is tracked (hence
ready count ≤ tracked count)" is preserved by `start` (when the freshly
spawned records are distinct and new), by `pop`, and by `_replenish` (when
the spawned record is new); it is NOT preserved by the health monitor's
removal nor by `shutdown` (see `ready_inv_violated`). -/
theorem ready_inv_preserved (p : AgentPool) (hinv : ReadyInv p) :
    p.ready_agents.length ≤ p.all_agents.length ∧
    (∀ (c : Bool) (envf : Nat → SpawnEnv), (startSuccesses p envf).Nodup →
      (∀ a ∈ startSuccesses p envf, a ∉ p.ready_agents) →
      ReadyInv (start p c envf)) ∧
    (∀ (aid : Option String) (env : SpawnEnv), ReadyInv (pop p aid env).2) ∧
    (∀ env : SpawnEnv,
      (∀ a, (spawnAgent none env).result = Except.ok a → a ∉ p.ready_agents) →
      ReadyInv (poolOf (replenish p env))) := by
  obtain ⟨hnd, hsub⟩ := hinv
  have hsub' : p.ready_agents ⊆ p.all_agents := fun a ha => hsub a ha
  refine ⟨(hnd.subperm hsub').length_le, ?_, ?_, ?_⟩
  · intro c envf hsnd hsfresh
    cases c
    · simpa [start] using ⟨hnd, hsub⟩
    · simp only [start, if_pos]
      constructor
      · exact hnd.append hsnd (fun a ha hb => hsfresh a hb ha)
      · intro a ha
        rcases List.mem_append.mp ha with h' | h'
        · exact List.mem_append_left _ (hsub a h')
        · exact List.mem_append_right _ h'
  · intro aid env
    have hdr := popDrain_inv p.ready_agents p.all_agents hnd hsub
    rcases hpd : popDrain p.ready_agents p.all_agents with ⟨o, q, all2⟩
    rcases o with _ | a
    · have hq : q = [] := by
        have h0 := popDrain_none_queue p.ready_agents p.all_agents (by rw [hpd])
        rw [hpd] at h0
        exact h0
      subst hq
      simp only [pop, hpd]
      rcases hs : (spawnAgent aid env).result with u | a
      · exact ⟨List.nodup_nil, fun a ha => absurd ha (List.not_mem_nil a)⟩
      · exact ⟨List.nodup_nil, fun x hx => absurd hx (List.not_mem_nil x)⟩
    · simp only [pop, hpd]
      rw [hpd] at hdr
      simp only at hdr
      exact ⟨hdr.1, hdr.2⟩
  · intro env hfresh
    by_cases hfull : p.all_agents.length ≥ p.pool_size
    · simp only [replenish, if_pos hfull, poolOf]
      exact ⟨hnd, hsub⟩
    · simp only [replenish, if_neg hfull]
      rcases hs : (spawnAgent none env).result with u | a
      · simp only [poolOf]
        exact ⟨hnd, hsub⟩
      · simp only [poolOf]
        constructor
        · refine hnd.append (List.nodup_singleton a) ?_
          intro x hx hxa
          rw [List.mem_singleton] at hxa
          subst hxa
          exact hfresh x hs hx
        · intro x hx
          rcases List.mem_append.mp hx with h' | h'
          · exact List.mem_append_left _ (hsub x h')
          · exact List.mem_append_right _ h'

/-- C1 (witness): the pop branch of `ready_inv_preserved` applied to a
concrete pool in steady state. -/
theorem ready_inv_preserved_witness :
    ReadyInv (pop poolShutdownCx none badEnv).2 :=
  (ready_inv_preserved poolShutdownCx (by decide)).2.2.1 none badEnv

/-- C2: `pop` only ever returns a record whose process snapshot is live
(whether it came from the queue drain or from the on-demand spawn), and a
dead record at the front of the queue is skipped and removed from tracking
(popping on a queue headed by a dead record equals popping on the pool with
that record dropped from the queue and erased from tracking). -/
theorem pop_returns_live (p : AgentPool) (aid : Option String) (env : SpawnEnv) :
    (∀ a, (pop p aid env).1 = some a → isAlive a = true) ∧
    (∀ d rest, p.ready_agents = d :: rest → isAlive d = false →
      pop p aid env =
        pop { p with ready_agents := rest,
                     all_agents := p.all_agents.erase d } aid env) := by
  constructor
  · intro a h
    rcases hpd : popDrain p.ready_agents p.all_agents with ⟨o, q, all2⟩
    rcases o with _ | b
    · simp only [pop, hpd] at h
      rcases hs : (spawnAgent aid env).result with u | c
      · rw [hs] at h
        simp at h
      · rw [hs] at h
        simp only [Option.some.injEq] at h
        have hc := (spawnAgent_ok aid env c hs).2.2
        rwa [h] at hc
    · simp only [pop, hpd, Option.some.injEq] at h
      have hb := popDrain_some_alive p.ready_agents p.all_agents b (by rw [hpd])
      rwa [h] at hb
  · intro d rest hq hd
    simp only [pop, hq, popDrain, hd]
    rfl

/-- C2 (witness): draining `poolDrainW`, whose queue front is dead, returns
the live record behind it. -/
theorem pop_returns_live_witness : isAlive wLive = true :=
  (pop_returns_live poolDrainW none badEnv).1 wLive (by decide)

/-- C5 (counterexample): with the first process dying in the grace period
and the second attempt succeeding, the retry spawns into the SAME room as
the first attempt (the room identifier is drawn once, before the retry
loop), and the returned record sits in that same room — the spec's "new
room id per retry" does not hold. -/
theorem spawn_retry_same_room :
    (spawnAgent none retryEnv).attemptsUsed = 2 ∧
    (spawnAgent none retryEnv).roomsUsed = ["r-retry", "r-retry"] ∧
    (spawnAgent none retryEnv).result = Except.ok retryAgent :=
  ⟨rfl, rfl, rfl⟩

/-- C5 (amended): `_spawn_agent` makes at most 3 attempts, fails only after
all 3 attempts are exhausted, sleeps a fixed 1 second between consecutive
attempts, and every attempt — and the returned record — uses the single
room identifier drawn before the loop (a new process, but NOT a new room). -/
theorem spawn_retry_policy (aid : Option String) (env : SpawnEnv) :
    (spawnAgent aid env).attemptsUsed ≤ max_attempts ∧
    ((spawnAgent aid env).result = Except.error () →
      (spawnAgent aid env).attemptsUsed = max_attempts) ∧
    (spawnAgent aid env).roomsUsed =
      List.replicate (spawnAgent aid env).attemptsUsed env.room ∧
    (spawnAgent aid env).delaysSlept =
      List.replicate ((spawnAgent aid env).attemptsUsed - 1) 1 ∧
    (∀ a, (spawnAgent aid env).result = Except.ok a → a.room_name = env.room) := by
  obtain ⟨h1, h2, h3, h4, h5⟩ := spawnGo_shape env.room env.now max_attempts
      { room_name := env.room, agent_id := aid, process := none,
        created_at := env.now, ready := false, last_health_check := env.now,
        health_check_passed := false } env.outcomes
  exact ⟨h1, h3, h4, h5, fun a ha => (spawnAgent_ok aid env a ha).2.1⟩

/-- C5 (witness): on an oracle where all three attempts raise, the full
attempt budget is consumed. -/
theorem spawn_retry_policy_witness :
    (spawnAgent none badEnv).attemptsUsed = max_attempts :=
  (spawn_retry_policy none badEnv).2.1 (by rfl)

theorem filterMap_toOption_all_ok :
    ∀ (l : List (Except Unit PooledAgent)), (∀ r ∈ l, r.isOk = true) →
      (l.filterMap Except.toOption).length = l.length := by
  intro l
  induction l with
  | nil => intro _; rfl
  | cons r rest ih =>
    intro h
    rcases r with u | a
    · have hu := h (Except.error u) (List.mem_cons_self _ _)
      simp [Except.isOk, Except.toBool] at hu
    · have hrec := ih (fun r hr => h r (List.mem_cons_of_mem _ hr))
      simp only [List.filterMap_cons, Except.toOption, List.length_cons]
      rw [hrec]

/-- C3: when every one of the `pool_size` concurrent pre-warm spawns
succeeds, `start` leaves the status snapshot reporting `pool_size` ready
and `pool_size` tracked, and every spawned record is inserted into both
the Ready Set and the tracking collection. -/
theorem start_fills_pool (p : AgentPool) (envf : Nat → SpawnEnv)
    (hready : p.ready_agents = []) (hall : p.all_agents = [])
    (hok : ∀ i ∈ List.range p.pool_size, ((spawnAgent none (envf i)).result).isOk = true) :
    (status (start p true envf)).ready = p.pool_size ∧
    (status (start p true envf)).total_tracked = p.pool_size ∧
    ∀ i ∈ List.range p.pool_size, ∀ a, (spawnAgent none (envf i)).result = Except.ok a →
      a ∈ (start p true envf).ready_agents ∧ a ∈ (start p true envf).all_agents := by
  have hlen : (startSuccesses p envf).length = p.pool_size := by
    unfold startSuccesses
    rw [filterMap_toOption_all_ok]
    · simp
    · intro r hr
      rcases List.mem_map.mp hr with ⟨i, hi, hri⟩
      rw [← hri]
      exact hok i hi
  have hmem : ∀ i ∈ List.range p.pool_size, ∀ a,
      (spawnAgent none (envf i)).result = Except.ok a → a ∈ startSuccesses p envf := by
    intro i hi a ha
    unfold startSuccesses
    refine List.mem_filterMap.mpr ⟨(spawnAgent none (envf i)).result, ?_, ?_⟩
    · exact List.mem_map.mpr ⟨i, hi, rfl⟩
    · rw [ha]; rfl
  refine ⟨?_, ?_, ?_⟩
  · simp [status, start, hready, hlen]
  · simp [status, start, hall, hlen]
  · intro i hi a ha
    constructor
    · simp only [start, if_pos]
      exact List.mem_append_right _ (hmem i hi a ha)
    · simp only [start, if_pos]
      exact List.mem_append_right _ (hmem i hi a ha)

/-- C3 (witness): a fresh pool of size 2 with always-succeeding spawn
oracles reports 2 ready and 2 tracked after `start`. -/
theorem start_fills_pool_witness :
    (status (start poolFresh2 true startEnvf)).ready = 2 ∧
    (status (start poolFresh2 true startEnvf)).total_tracked = 2 :=
  ⟨(start_fills_pool poolFresh2 startEnvf rfl rfl (by decide)).1,
   (start_fills_pool poolFresh2 startEnvf rfl rfl (by decide)).2.1⟩

/-- C4: `pop` returns `None` exactly when the queue drain yields no live
record AND the on-demand spawn fails (the spawn exception is caught, not
propagated: `pop` still returns a value); when the drain yields nothing and
the on-demand spawn succeeds with a record not already tracked, that record
is returned and is not left in the tracking collection. -/
theorem pop_none_iff (p : AgentPool) (aid : Option String) (env : SpawnEnv) :
    ((pop p aid env).1 = none ↔
      ((∀ a ∈ p.ready_agents, isAlive a = false) ∧
        ((spawnAgent aid env).result).isOk = false)) ∧
    (∀ a, (∀ b ∈ p.ready_agents, isAlive b = false) →
      (spawnAgent aid env).result = Except.ok a → a ∉ p.all_agents →
      (pop p aid env).1 = some a ∧ a ∉ (pop p aid env).2.all_agents) := by
  rcases hpd : popDrain p.ready_agents p.all_agents with ⟨o, q, all2⟩
  rcases o with _ | b
  · have hdead : ∀ a ∈ p.ready_agents, isAlive a = false :=
      (popDrain_none_iff p.ready_agents p.all_agents).mp (by rw [hpd])
    constructor
    · constructor
      · intro h
        refine ⟨hdead, ?_⟩
        rcases hs : (spawnAgent aid env).result with u | c
        · rfl
        · simp only [pop, hpd] at h
          rw [hs] at h
          simp at h
      · rintro ⟨-, hnok⟩
        simp only [pop, hpd]
        rcases hs : (spawnAgent aid env).result with u | c
        · rfl
        · rw [hs] at hnok
          simp [Except.isOk, Except.toBool] at hnok
    · intro a hdead' hs hnotin
      simp only [pop, hpd]
      rw [hs]
      refine ⟨rfl, ?_⟩
      intro hmem
      exact hnotin (popDrain_all_sub p.ready_agents p.all_agents a
        (by rw [hpd]; exact List.erase_subset a all2 hmem))
  · have hlive := popDrain_some_alive p.ready_agents p.all_agents b (by rw [hpd])
    constructor
    · constructor
      · intro h
        simp [pop, hpd] at h
      · rintro ⟨hdead, -⟩
        have : (popDrain p.ready_agents p.all_agents).1 = none :=
          (popDrain_none_iff p.ready_agents p.all_agents).mpr hdead
        rw [hpd] at this
        simp at this
    · intro a hdead' hs hnotin
      have : (popDrain p.ready_agents p.all_agents).1 = none :=
        (popDrain_none_iff p.ready_agents p.all_agents).mpr hdead'
      rw [hpd] at this
      simp at this

/-- C4 (witness): with a dead-only queue and an always-failing spawn
oracle, `pop` returns `None`. -/
theorem pop_none_iff_witness : (pop poolSweepCx none badEnv).1 = none :=
  (pop_none_iff poolSweepCx none badEnv).1.mpr ⟨by decide, by rfl⟩

/-- C6 (counterexample): on an empty pool below target with an
always-failing spawn oracle, `_replenish` does NOT return normally — the
spawn failure escapes it (there is no handler in `_replenish`; only the
fire-and-forget task wrapper absorbs it) — though the pool state at the
point of propagation is unchanged. -/
theorem replenish_failure_escapes :
    (replenish poolEmpty badEnv).isOk = false ∧
    replenish poolEmpty badEnv = Except.error poolEmpty :=
  ⟨rfl, rfl⟩

/-- C6 (amended): when the spawn inside `_replenish` fails, the exception
propagates out of `_replenish` uncaught (it reaches no caller only because
`_replenish` runs as a fire-and-forget task); whether the guard returns
early (pool already at target) or the spawn failure escapes, the pool state
is left unchanged. -/
theorem replenish_failure_unchanged (p : AgentPool) (env : SpawnEnv)
    (hfail : ((spawnAgent none env).result).isOk = false) :
    (p.pool_size ≤ p.all_agents.length → replenish p env = Except.ok p) ∧
    (p.all_agents.length < p.pool_size → replenish p env = Except.error p) ∧
    poolOf (replenish p env) = p := by
  have hstep : p.all_agents.length < p.pool_size → replenish p env = Except.error p := by
    intro hlt
    simp only [replenish, if_neg (Nat.not_le.mpr hlt)]
    rcases hs : (spawnAgent none env).result with u | a
    · rfl
    · rw [hs] at hfail
      simp [Except.isOk, Except.toBool] at hfail
  refine ⟨?_, hstep, ?_⟩
  · intro hge
    simp only [replenish, if_pos (show p.all_agents.length ≥ p.pool_size from hge)]
  · by_cases hge : p.pool_size ≤ p.all_agents.length
    · simp only [replenish, if_pos (show p.all_agents.length ≥ p.pool_size from hge), poolOf]
    · rw [hstep (Nat.not_le.mp hge)]
      rfl

/-- C6 (witness): the amended statement evaluated on the empty pool with
the always-failing oracle. -/
theorem replenish_failure_unchanged_witness :
    replenish poolEmpty badEnv = Except.error poolEmpty :=
  (replenish_failure_unchanged poolEmpty badEnv (by rfl)).2.1 (by decide)

/-- C7 (counterexample): `shutdown` on a pool with one live pooled record
empties the tracking collection but leaves the record sitting in the Ready
Set — the queue is never cleared, so the ready count stays 1, not 0. -/
theorem shutdown_leaves_queue :
    (shutdown poolShutdownCx).1.all_agents.length = 0 ∧
    (shutdown poolShutdownCx).1.ready_agents.length = 1 := by decide

/-- C7 (amended): after `shutdown()` the tracking collection is empty, the
running flag is cleared and the health monitor is cancelled, and every
tracked record with a live process is terminated — but the Ready Set is
left exactly as it was (it is NOT cleared). -/
theorem shutdown_clears_tracking (p : AgentPool) :
    (shutdown p).1.all_agents = [] ∧
    (shutdown p).1.running = false ∧
    (shutdown p).1.health_task = false ∧
    (∀ a ∈ p.all_agents, isAlive a = true → a ∈ (shutdown p).2) ∧
    (shutdown p).1.ready_agents = p.ready_agents := by
  refine ⟨rfl, rfl, rfl, ?_, rfl⟩
  intro a ha hl
  simp only [shutdown]
  exact List.mem_filter.mpr ⟨ha, hl⟩

/-- C7 (witness): the live record of `poolShutdownCx` is among the
terminated processes of its shutdown. -/
theorem shutdown_clears_tracking_witness : wLive ∈ (shutdown poolShutdownCx).2 :=
  (shutdown_clears_tracking poolShutdownCx).2.2.2.1 wLive (by decide) (by rfl)

/-- C8: a `_replenish` step never pushes the tracked count past the target
size — starting from tracked ≤ target it ends with tracked ≤ target — and
the tracked count changes only if it was strictly below the target when
`_replenish` re-checked it under the lock. -/
theorem replenish_bounded (p : AgentPool) (env : SpawnEnv)
    (h : p.all_agents.length ≤ p.pool_size) :
    (poolOf (replenish p env)).all_agents.length ≤ p.pool_size ∧
    ((poolOf (replenish p env)).all_agents.length ≠ p.all_agents.length →
      p.all_agents.length < p.pool_size) := by
  by_cases hge : p.all_agents.length ≥ p.pool_size
  · simp only [replenish, if_pos hge, poolOf]
    exact ⟨h, fun hne => absurd rfl hne⟩
  · have hlt : p.all_agents.length < p.pool_size := Nat.not_le.mp hge
    simp only [replenish, if_neg hge]
    rcases hs : (spawnAgent none env).result with u | a
    · simp only [poolOf]
      exact ⟨h, fun _ => hlt⟩
    · simp only [poolOf, List.length_append, List.length_cons, List.length_nil]
      exact ⟨by omega, fun _ => hlt⟩

/-- C8 (witness): replenishing the empty size-1 pool with a succeeding
spawn keeps the tracked count within the target. -/
theorem replenish_bounded_witness :
    (poolOf (replenish poolEmpty goodEnv)).all_agents.length ≤ 1 :=
  (replenish_bounded poolEmpty goodEnv (by decide)).1

/-- C9: every record ever inserted into the Ready Set comes from a spawn
with no tenant reference — `start` and `_replenish` only add records whose
`agent_id` is `none`; `pop` never adds to the Ready Set; and a spawn with a
tenant reference stamps that reference on the returned record (so
tenant-specific records arise only from pop's on-demand path, which does
not pool them). -/
theorem pooled_agents_generic (p : AgentPool) :
    (∀ (c : Bool) (envf : Nat → SpawnEnv) (a : PooledAgent),
      a ∈ (start p c envf).ready_agents → a ∈ p.ready_agents ∨ a.agent_id = none) ∧
    (∀ (env : SpawnEnv) (a : PooledAgent),
      a ∈ (poolOf (replenish p env)).ready_agents →
      a ∈ p.ready_agents ∨ a.agent_id = none) ∧
    (∀ (aid : Option String) (env : SpawnEnv) (a : PooledAgent),
      a ∈ (pop p aid env).2.ready_agents → a ∈ p.ready_agents) ∧
    (∀ (aid : Option String) (env : SpawnEnv) (a : PooledAgent),
      (spawnAgent aid env).result = Except.ok a → a.agent_id = aid) := by
  have hsucc : ∀ (envf : Nat → SpawnEnv) (a : PooledAgent),
      a ∈ startSuccesses p envf → a.agent_id = none := by
    intro envf a ha
    unfold startSuccesses at ha
    rcases List.mem_filterMap.mp ha with ⟨r, hr, hra⟩
    rcases List.mem_map.mp hr with ⟨i, _, hri⟩
    rcases r with u | b
    · simp [Except.toOption] at hra
    · have hb : b = a := by simpa [Except.toOption] using hra
      subst hb
      exact (spawnAgent_ok none (envf i) b hri).1
  refine ⟨?_, ?_, ?_, ?_⟩
  · intro c envf a ha
    cases c
    · simp only [start] at ha
      exact Or.inl ha
    · simp only [start, if_pos] at ha
      rcases List.mem_append.mp ha with h' | h'
      · exact Or.inl h'
      · exact Or.inr (hsucc envf a h')
  · intro env a ha
    by_cases hge : p.all_agents.length ≥ p.pool_size
    · simp only [replenish, if_pos hge, poolOf] at ha
      exact Or.inl ha
    · simp only [replenish, if_neg hge] at ha
      rcases hs : (spawnAgent none env).result with u | b
      · rw [hs] at ha
        simp only [poolOf] at ha
        exact Or.inl ha
      · rw [hs] at ha
        simp only [poolOf] at ha
        rcases List.mem_append.mp ha with h' | h'
        · exact Or.inl h'
        · rw [List.mem_singleton] at h'
          subst h'
          exact Or.inr (spawnAgent_ok none env a hs).1
  · intro aid env a ha
    rcases hpd : popDrain p.ready_agents p.all_agents with ⟨o, q, all2⟩
    have hq : ∀ x ∈ q, x ∈ p.ready_agents := by
      intro x hx
      have := popDrain_queue_sub p.ready_agents p.all_agents x
      rw [hpd] at this
      exact this hx
    rcases o with _ | b
    · simp only [pop, hpd] at ha
      rcases hs : (spawnAgent aid env).result with u | c
      · simp only [hs] at ha
        by_cases hc : q.length > p.pool_size
        · rw [if_pos hc] at ha
          simp at ha
        · rw [if_neg hc] at ha
          exact hq a ha
      · simp only [hs] at ha
        by_cases hc : q.length > p.pool_size
        · rw [if_pos hc] at ha
          simp at ha
        · rw [if_neg hc] at ha
          exact hq a ha
    · simp only [pop, hpd] at ha
      exact hq a ha
  · intro aid env a ha
    exact (spawnAgent_ok aid env a ha).1

/-- C9 (witness): the on-demand spawn with a tenant reference stamps it on
the returned record. -/
theorem pooled_agents_generic_witness : tenantAgent.agent_id = some "tenant" :=
  (pooled_agents_generic poolEmpty).2.2.2 (some "tenant") tenantEnv tenantAgent (by rfl)

/-- C10: `start` on an unconfigured pool performs no spawns — collections
stay empty — but still sets the running flag and starts the Health Monitor,
and the very next health sweep (whose replenishment decision compares only
tracked count with target size and never consults the configuration flag)
schedules a full target-size worth of replenishment spawns. -/
theorem start_unconfigured (p : AgentPool) (envf : Nat → SpawnEnv) (now : Nat)
    (h0 : p.ready_agents = []) (h1 : p.all_agents = []) :
    (start p false envf).ready_agents = [] ∧
    (start p false envf).all_agents = [] ∧
    (start p false envf).running = true ∧
    (start p false envf).health_task = true ∧
    (healthSweep (start p false envf) now).2 = p.pool_size := by
  refine ⟨h0, h1, rfl, rfl, ?_⟩
  simp only [healthSweep, start, if_true, h1, List.filter_nil, List.foldl_nil,
    List.length_nil]
  rcases Nat.eq_zero_or_pos p.pool_size with hz | hp
  · simp [hz]
  · simp [hp]

/-- C10 (witness): the unconfigured start of a fresh size-2 pool is
followed by a sweep scheduling 2 replenishments. -/
theorem start_unconfigured_witness :
    (healthSweep (start poolFresh2 false startEnvf) 0).2 = 2 :=
  (start_unconfigured poolFresh2 startEnvf 0 rfl rfl).2.2.2.2
